import Mathlib

/-!
Verification development for the `egui-snarl` node-graph editor widget.

Shallow embedding of the repository's three source files:
  * `src/ui/background_pattern.rs` — the `Viewport` coordinate transforms,
    the `Grid` background renderer and the `BackgroundPattern` tagged union;
  * `src/ui/events.rs` — the `GraphEvents` capability interface with its
    default policy and the stateful `ClickGraphEvents` click-based policy;
  * `examples/demo.rs` — the `DemoViewer` connection validator.

Machine floats (`f32`/`f64`) are embedded as rationals `ℚ`, so every
"up to floating-point rounding" statement is settled exactly in the
rational model.  Painting is purified: a draw call returns the list of
line segments it would paint instead of mutating a GUI surface.
-/

namespace Snarl

/-- Embedding of `egui::Vec2` (an `f32` 2D vector) with rational components. -/
structure Vec2 where
  x : ℚ
  y : ℚ
deriving DecidableEq, Repr

/-- Embedding of `egui::Pos2` (an `f32` 2D point) with rational components. -/
structure Pos2 where
  x : ℚ
  y : ℚ
deriving DecidableEq, Repr

instance : Add Vec2 := ⟨fun a b => ⟨a.x + b.x, a.y + b.y⟩⟩
instance : Neg Vec2 := ⟨fun a => ⟨-a.x, -a.y⟩⟩
instance : Zero Vec2 := ⟨⟨0, 0⟩⟩

/-- Embeds `Pos2 + Vec2 → Pos2` as in egui. -/
def Pos2.addVec (p : Pos2) (v : Vec2) : Pos2 := ⟨p.x + v.x, p.y + v.y⟩

/-- Embeds `Pos2 - Vec2 → Pos2` as in egui. -/
def Pos2.subVec (p : Pos2) (v : Vec2) : Pos2 := ⟨p.x - v.x, p.y - v.y⟩

/-- Embeds `Pos2 / f32 → Pos2` (componentwise) as in egui. -/
def Pos2.divScalar (p : Pos2) (s : ℚ) : Pos2 := ⟨p.x / s, p.y / s⟩

/-- Embeds `Pos2 * f32 → Pos2` (componentwise) as in egui. -/
def Pos2.mulScalar (p : Pos2) (s : ℚ) : Pos2 := ⟨p.x * s, p.y * s⟩

/-- Embeds `Vec2 / f32` componentwise. -/
def Vec2.divScalar (v : Vec2) (s : ℚ) : Vec2 := ⟨v.x / s, v.y / s⟩

/-- Embeds `Vec2 * f32` componentwise. -/
def Vec2.mulScalar (v : Vec2) (s : ℚ) : Vec2 := ⟨v.x * s, v.y * s⟩

/-- Embeds `Pos2::to_vec2`. -/
def Pos2.to_vec2 (p : Pos2) : Vec2 := ⟨p.x, p.y⟩

/-- Embeds `Vec2::to_pos2`. -/
def Vec2.to_pos2 (v : Vec2) : Pos2 := ⟨v.x, v.y⟩

/-- Embedding of `egui::Rect`: a screen- or graph-space rectangle given by
its min and max corners. -/
structure Rect where
  min : Pos2
  max : Pos2
deriving DecidableEq, Repr

/-- Embeds `Rect::center`. -/
def Rect.center (r : Rect) : Pos2 :=
  ⟨(r.min.x + r.max.x) / 2, (r.min.y + r.max.y) / 2⟩

/-- Embeds `Rect::from_min_max`. -/
def Rect.from_min_max (mn mx : Pos2) : Rect := ⟨mn, mx⟩

/-- Embeds `Viewport` from `src/ui/background_pattern.rs`: screen-space rectangle,
uniform scale and pan offset. -/
structure Viewport where
  rect : Rect
  scale : ℚ
  offset : Vec2
deriving DecidableEq, Repr

/-- Embeds `Viewport::screen_pos_to_graph`:
`(pos + self.offset - self.rect.center().to_vec2()) / self.scale`. -/
def Viewport.screen_pos_to_graph (v : Viewport) (pos : Pos2) : Pos2 :=
  ((pos.addVec v.offset).subVec v.rect.center.to_vec2).divScalar v.scale

/-- Embeds `Viewport::graph_pos_to_screen`:
`pos * self.scale - self.offset + self.rect.center().to_vec2()`. -/
def Viewport.graph_pos_to_screen (v : Viewport) (pos : Pos2) : Pos2 :=
  ((pos.mulScalar v.scale).subVec v.offset).addVec v.rect.center.to_vec2

/-- Embeds `Viewport::graph_vec_to_screen`: `size * self.scale`. -/
def Viewport.graph_vec_to_screen (v : Viewport) (size : Vec2) : Vec2 :=
  size.mulScalar v.scale

/-- Embeds `Viewport::screen_vec_to_graph`: `size / self.scale`. -/
def Viewport.screen_vec_to_graph (v : Viewport) (size : Vec2) : Vec2 :=
  size.divScalar v.scale

/-- Embeds `Viewport::graph_size_to_screen`: `size * self.scale`. -/
def Viewport.graph_size_to_screen (v : Viewport) (size : ℚ) : ℚ :=
  size * v.scale

/-- Embeds `Viewport::screen_size_to_graph`: `size / self.scale`. -/
def Viewport.screen_size_to_graph (v : Viewport) (size : ℚ) : ℚ :=
  size / v.scale

/-- Squared Euclidean distance between two positions (rational, exact);
the Euclidean distance is its square root. -/
def Pos2.distSq (a b : Pos2) : ℚ :=
  (a.x - b.x) ^ 2 + (a.y - b.y) ^ 2

/-! ## Event layer: `src/ui/events.rs`

The raw per-frame input snapshot (`egui::InputState`) and per-widget
interaction response (`egui::Response`) are consumed interfaces of the
host GUI framework; they are embedded as records of the exact queries the
events module makes of them. -/

/-- Embeds `egui::PointerButton` (the two buttons the events module queries). -/
inductive PointerButton where
  | Primary
  | Secondary
deriving DecidableEq, Repr

/-- Embeds `egui::Key` (the one key the events module queries). -/
inductive Key where
  | Escape
deriving DecidableEq, Repr

/-- Modifier-key state `egui::Modifiers`, restricted to the fields the
events module reads (`shift`, `command`). -/
structure Modifiers where
  shift : Bool
  command : Bool
deriving DecidableEq, Repr

/-- Pointer state `egui::PointerState`, restricted to the queries made:
`button_down` and `delta`. -/
structure PointerState where
  button_down : PointerButton → Bool
  delta : Vec2

/-- Per-frame input snapshot `egui::InputState`, restricted to the queries
made: modifiers, pointer, `key_pressed`. -/
structure InputState where
  modifiers : Modifiers
  pointer : PointerState
  key_pressed : Key → Bool

/-- Per-widget interaction response `egui::Response`, restricted to the
queries the events module makes of it. -/
structure Response where
  clicked : Bool
  double_clicked : Bool
  dragged : Bool
  drag_stopped : Bool
  clicked_by : PointerButton → Bool
  dragged_by : PointerButton → Bool
  drag_started_by : PointerButton → Bool
  drag_stopped_by : PointerButton → Bool
  drag_delta : Vec2

namespace DefaultGraphEvents

/-! The default bodies of the `GraphEvents` trait methods, which
`DefaultGraphEvents` inherits unchanged.  `DefaultGraphEvents` is a unit
struct, so its methods are pure functions of the response and input. -/

/-- Embeds `GraphEvents::remove_hovered_wire` default body. -/
def remove_hovered_wire (background_response : Response) (_input_state : InputState) : Bool :=
  background_response.clicked_by .Secondary

/-- Embeds `GraphEvents::start_select_area` default body. -/
def start_select_area (background_response : Response) (input_state : InputState) : Bool :=
  background_response.drag_started_by .Primary && input_state.modifiers.shift

/-- Embeds `GraphEvents::stop_select_area` default body. -/
def stop_select_area (background_response : Response) (_input_state : InputState) : Bool :=
  background_response.drag_stopped_by .Primary

/-- Embeds `GraphEvents::move_area` default body. -/
def move_area (background_response : Response) (_input_state : InputState) : Bool :=
  background_response.dragged_by .Primary

/-- Embeds `GraphEvents::move_area_delta` default body. -/
def move_area_delta (background_response : Response) (_input_state : InputState) : Vec2 :=
  -background_response.drag_delta

/-- Embeds `GraphEvents::cancel_new_wire` default body. -/
def cancel_new_wire (_background_response : Response) (input_state : InputState) : Bool :=
  input_state.pointer.button_down .Secondary

/-- Embeds `GraphEvents::do_centering` default body. -/
def do_centering (background_response : Response) (_input_state : InputState) : Bool :=
  background_response.double_clicked

/-- Embeds `GraphEvents::deselect_all_nodes` default body. -/
def deselect_all_nodes (background_response : Response) (input_state : InputState) : Bool :=
  input_state.modifiers.command && background_response.clicked_by .Primary

/-- Embeds `GraphEvents::node_move` default body. -/
def node_move (response : Response) (input_state : InputState) : Bool :=
  !input_state.modifiers.shift
    && !input_state.modifiers.command
    && response.dragged_by .Primary

/-- Embeds `GraphEvents::node_move_delta` default body. -/
def node_move_delta (response : Response) (_input_state : InputState) : Vec2 :=
  response.drag_delta

/-- Embeds `GraphEvents::select_one_node` default body. -/
def select_one_node (response : Response) (input_state : InputState) : Bool :=
  (response.clicked_by .Primary || response.dragged_by .Primary)
    && input_state.modifiers.shift

/-- Embeds `GraphEvents::deselect_one_node` default body. -/
def deselect_one_node (response : Response) (input_state : InputState) : Bool :=
  (response.clicked_by .Primary || response.dragged_by .Primary)
    && input_state.modifiers.command

/-- Embeds `GraphEvents::not_to_top` default body. -/
def not_to_top (response : Response) (_input_state : InputState) : Bool :=
  response.clicked || response.dragged

/-- Embeds `GraphEvents::remove_wire` default body. -/
def remove_wire (response : Response) (_input_state : InputState) : Bool :=
  response.clicked_by .Secondary

/-- Embeds `GraphEvents::start_drag_wire` default body. -/
def start_drag_wire (response : Response) (_input_state : InputState) : Bool :=
  response.drag_started_by .Primary

/-- Embeds `GraphEvents::stop_drag_wire` default body. -/
def stop_drag_wire (response : Response) (_input_state : InputState) : Bool :=
  response.drag_stopped

/-- Embeds `GraphEvents::start_new_wire_out` default body. -/
def start_new_wire_out (response : Response) (input_state : InputState) : Bool :=
  response.drag_started_by .Primary && input_state.modifiers.command

/-- Embeds `GraphEvents::start_new_wire_in` default body. -/
def start_new_wire_in (response : Response) (input_state : InputState) : Bool :=
  response.drag_started_by .Primary && !input_state.modifiers.command

/-- Embeds `GraphEvents::drop_inputs_pin` default body. -/
def drop_inputs_pin (response : Response) (input_state : InputState) : Bool :=
  response.drag_started_by .Primary && input_state.modifiers.command
    && !input_state.modifiers.shift

end DefaultGraphEvents

/-- The private `ItemDragged` enumeration of `src/ui/events.rs`. -/
inductive ItemDragged where
  | None
  | Node
  | Wire
deriving DecidableEq, Repr

/-- Embeds `ClickGraphEvents`: the click-based policy, whose only state is its
drag mode. -/
structure ClickGraphEvents where
  drag : ItemDragged
deriving DecidableEq, Repr

instance : Inhabited ClickGraphEvents := ⟨⟨.None⟩⟩

/-- Embeds `Default` for `ClickGraphEvents` (derived in Rust): drag mode `None`. -/
def ClickGraphEvents.default : ClickGraphEvents := ⟨.None⟩

/-- Embeds `ClickGraphEvents::node_move` (the override in `src/ui/events.rs`).
Rust mutates `self.drag` through `&mut self`; the embedding returns the
reported boolean together with the updated state. -/
def ClickGraphEvents.node_move (self : ClickGraphEvents) (response : Response)
    (input_state : InputState) : Bool × ClickGraphEvents :=
  match self.drag with
  | .None =>
      if !input_state.modifiers.shift && !input_state.modifiers.command
          && response.clicked_by .Primary then
        (true, ⟨.Node⟩)
      else
        (false, self)
  | .Node =>
      if input_state.key_pressed .Escape || response.clicked_by .Primary then
        (false, ⟨.None⟩)
      else
        (true, self)
  | .Wire => (false, self)

/-- Embeds `ClickGraphEvents::node_move_delta` (the override): the raw pointer
delta while a node drag is latched, zero otherwise. -/
def ClickGraphEvents.node_move_delta (self : ClickGraphEvents) (_response : Response)
    (input_state : InputState) : Vec2 :=
  if self.drag = ItemDragged.Node then
    input_state.pointer.delta
  else
    (0 : Vec2)

/-- The methods of the `GraphEvents` trait, enumerated.  Used to quantify
over arbitrary sequences of trait-method calls on a `ClickGraphEvents`
value. -/
inductive GEMethod where
  | remove_hovered_wire
  | start_select_area
  | stop_select_area
  | move_area
  | move_area_delta
  | cancel_new_wire
  | do_centering
  | deselect_all_nodes
  | node_move
  | node_move_delta
  | select_one_node
  | deselect_one_node
  | not_to_top
  | remove_wire
  | start_drag_wire
  | stop_drag_wire
  | start_new_wire_out
  | start_new_wire_in
  | drop_inputs_pin
deriving DecidableEq, Repr

/-- The state effect of one `GraphEvents` method call on a
`ClickGraphEvents` value.  `ClickGraphEvents` overrides `node_move` and
`node_move_delta`; every other method keeps its default body, which never
writes `self`, so only `node_move` can change the state. -/
def ClickGraphEvents.step (self : ClickGraphEvents) (m : GEMethod)
    (response : Response) (input_state : InputState) : ClickGraphEvents :=
  match m with
  | .node_move => (self.node_move response input_state).2
  | _ => self

/-- Run a sequence of `GraphEvents` method calls, threading the
`ClickGraphEvents` state. -/
def ClickGraphEvents.run (self : ClickGraphEvents)
    (calls : List (GEMethod × Response × InputState)) : ClickGraphEvents :=
  calls.foldl (fun s c => s.step c.1 c.2.1 c.2.2) self

/-! ## Background pattern: `src/ui/background_pattern.rs` -/

/-- Embedding of `egui::Color32` with rational channels. -/
structure Color32 where
  r : ℚ
  g : ℚ
  b : ℚ
  a : ℚ
deriving DecidableEq, Repr

/-- Embeds `egui::Color32::gamma_multiply` (consumed interface): multiplies every
channel, the alpha channel included, by the factor.  The u8 quantization of
egui is elided in the rational model. -/
def Color32.gamma_multiply (c : Color32) (factor : ℚ) : Color32 :=
  ⟨c.r * factor, c.g * factor, c.b * factor, c.a * factor⟩

/-- Embedding of `egui::Stroke`. -/
structure Stroke where
  width : ℚ
  color : Color32
deriving DecidableEq, Repr

/-- Embeds `Stroke::new`. -/
def Stroke.new (width : ℚ) (color : Color32) : Stroke := ⟨width, color⟩

/-- Embedding of `egui::emath::Rot2`, a 2D rotation stored as
`{ s = sin θ, c = cos θ }`. -/
structure Rot2 where
  s : ℚ
  c : ℚ
deriving DecidableEq, Repr

/-- Embeds `Rot2::length_sq`. -/
def Rot2.length_sq (r : Rot2) : ℚ := r.c * r.c + r.s * r.s

/-- Embeds `Rot2::inverse`: `Rot2 { s: -s, c } / length_sq`. -/
def Rot2.inverse (r : Rot2) : Rot2 :=
  ⟨-r.s / r.length_sq, r.c / r.length_sq⟩

/-- Embeds `Rot2 * Vec2`. -/
def Rot2.mulVec (r : Rot2) (v : Vec2) : Vec2 :=
  ⟨r.c * v.x - r.s * v.y, r.s * v.x + r.c * v.y⟩

/-- Embeds `Rect::rotate_bb` (consumed egui interface): the axis-aligned bounding
box of the four rotated corners. -/
def Rect.rotate_bb (rect : Rect) (rot : Rot2) : Rect :=
  let a := rot.mulVec rect.min.to_vec2
  let b := rot.mulVec ⟨rect.max.x, rect.min.y⟩
  let c := rot.mulVec ⟨rect.min.x, rect.max.y⟩
  let d := rot.mulVec rect.max.to_vec2
  ⟨⟨Min.min (Min.min a.x b.x) (Min.min c.x d.x), Min.min (Min.min a.y b.y) (Min.min c.y d.y)⟩,
   ⟨Max.max (Max.max a.x b.x) (Max.max c.x d.x), Max.max (Max.max a.y b.y) (Max.max c.y d.y)⟩⟩

/-- Embeds `SnarlStyle`, restricted to the one field `Grid::draw` reads. -/
structure SnarlStyle where
  background_pattern_stroke : Option Stroke

/-- The slice of `egui::Ui` that `Grid::draw` reads:
`ui.spacing().icon_width` and `ui.visuals().widgets.noninteractive.bg_stroke`. -/
structure Ui where
  icon_width : ℚ
  noninteractive_bg_stroke : Stroke

/-- A painted line segment: the two endpoints handed to
`ui.painter().line_segment` and the stroke used. -/
structure PaintCmd where
  top : Pos2
  bottom : Pos2
  stroke : Stroke
deriving DecidableEq, Repr

/-- Embeds `Grid` from `src/ui/background_pattern.rs`. -/
structure Grid where
  spacing : Vec2
  angle : ℚ
deriving DecidableEq, Repr

/-- Embeds `DEFAULT_GRID_SPACING = vec2(5.0, 5.0)`. -/
def DEFAULT_GRID_SPACING : Vec2 := ⟨5, 5⟩

/-- Embeds `DEFAULT_GRID_ANGLE = 1.0`. -/
def DEFAULT_GRID_ANGLE : ℚ := 1

/-- Embeds `Default` for `Grid`. -/
def Grid.default : Grid := ⟨DEFAULT_GRID_SPACING, DEFAULT_GRID_ANGLE⟩

/-- Embeds `Grid::new`. -/
def Grid.new (spacing : Vec2) (angle : ℚ) : Grid := ⟨spacing, angle⟩

/-- The per-axis loop of `Grid::draw`: the grid-line indices
`min_i .. max_i` with `min_i = ceil(lo / spacing)` and
`max_i = floor(hi / spacing)`, exactly as the source loop
`for x in 0..=(max_x - min_x) as i64` enumerates them (a negative
difference casts to a negative `i64`, so the inclusive range is empty). -/
def gridIndices (lo hi spacing : ℚ) : List ℤ :=
  if ⌊hi / spacing⌋ - ⌈lo / spacing⌉ < 0 then []
  else (List.range (⌊hi / spacing⌋ - ⌈lo / spacing⌉).toNat.succ).map
    (fun k : ℕ => ⌈lo / spacing⌉ + (k : ℤ))

/-- Embeds `Grid::draw`, purified: returns the list of `line_segment` calls it
would issue.  `Rot2::from_angle` is transcendental (sine/cosine), so the
rotation computed from `self.angle` is supplied by the caller through
`from_angle`; everything downstream of it is translated from the source. -/
def Grid.draw (self : Grid) (style : SnarlStyle) (viewport : Viewport) (ui : Ui)
    (from_angle : ℚ → Rot2) : List PaintCmd :=
  let bg_stroke := style.background_pattern_stroke.getD ui.noninteractive_bg_stroke
  let stroke := Stroke.new (bg_stroke.width * max viewport.scale 1)
    (bg_stroke.color.gamma_multiply (min viewport.scale 1))
  let spacing : Vec2 := ⟨ui.icon_width * self.spacing.x, ui.icon_width * self.spacing.y⟩
  let rot := from_angle self.angle
  let rot_inv := rot.inverse
  let graph_viewport := Rect.from_min_max
    (viewport.screen_pos_to_graph viewport.rect.min)
    (viewport.screen_pos_to_graph viewport.rect.max)
  let pattern_bounds := graph_viewport.rotate_bb rot_inv
  let xlines := (gridIndices pattern_bounds.min.x pattern_bounds.max.x spacing.x).map
    (fun i : ℤ =>
      let x := (i : ℚ) * spacing.x
      let top := (rot.mulVec ⟨x, pattern_bounds.min.y⟩).to_pos2
      let bottom := (rot.mulVec ⟨x, pattern_bounds.max.y⟩).to_pos2
      PaintCmd.mk (viewport.graph_pos_to_screen top)
        (viewport.graph_pos_to_screen bottom) stroke)
  let ylines := (gridIndices pattern_bounds.min.y pattern_bounds.max.y spacing.y).map
    (fun i : ℤ =>
      let y := (i : ℚ) * spacing.y
      let top := (rot.mulVec ⟨pattern_bounds.min.x, y⟩).to_pos2
      let bottom := (rot.mulVec ⟨pattern_bounds.max.x, y⟩).to_pos2
      PaintCmd.mk (viewport.graph_pos_to_screen top)
        (viewport.graph_pos_to_screen bottom) stroke)
  xlines ++ ylines

/-- The custom background callback `CustomBackground`, purified: a function
from the style, viewport and `Ui` slice to painted segments. -/
def CustomBackground : Type := SnarlStyle → Viewport → Ui → List PaintCmd

/-- Embeds `BackgroundPattern`: closed tagged union with three variants. -/
inductive BackgroundPattern where
  | NoPattern
  | Grid (g : Snarl.Grid)
  | Custom (f : CustomBackground)

/-- The manual `impl PartialEq for BackgroundPattern`: only two `Grid`
variants compare by their payloads; every other pair is `false`. -/
def BackgroundPattern.eq : BackgroundPattern → BackgroundPattern → Bool
  | .Grid l, .Grid r => decide (l = r)
  | _, _ => false

/-- Embeds `Default` for `BackgroundPattern`: a default `Grid`. -/
def BackgroundPattern.default : BackgroundPattern := .Grid Grid.default

/-- Embeds `BackgroundPattern::new`. -/
def BackgroundPattern.new : BackgroundPattern :=
  .Grid (Grid.new DEFAULT_GRID_SPACING DEFAULT_GRID_ANGLE)

/-- Embeds `BackgroundPattern::grid`. -/
def BackgroundPattern.grid (spacing : Vec2) (angle : ℚ) : BackgroundPattern :=
  .Grid (Grid.new spacing angle)

/-- Embeds `BackgroundPattern::draw`: dispatch on the variant. -/
def BackgroundPattern.draw (self : BackgroundPattern) (style : SnarlStyle)
    (viewport : Viewport) (ui : Ui) (from_angle : ℚ → Rot2) : List PaintCmd :=
  match self with
  | .Grid g => g.draw style viewport ui from_angle
  | .Custom c => c style viewport ui
  | .NoPattern => []

/-! ## Connection protocol: `examples/demo.rs`

The `Snarl` graph container itself (`snarl.connect`, `snarl.disconnect`,
the `remotes` field of the pins it hands to the viewer) lives in the
library crate, whose source is not part of this repository snapshot; those
operations are modelled from the spec.  `DemoViewer::connect` — the
Connection Protocol validator — is translated from `examples/demo.rs`. -/

/-- Embeds `OutPinId`: an output pin addressed by (node id, output index). -/
structure OutPinId where
  node : ℕ
  output : ℕ
deriving DecidableEq, Repr

/-- Embeds `InPinId`: an input pin addressed by (node id, input index). -/
structure InPinId where
  node : ℕ
  input : ℕ
deriving DecidableEq, Repr

/-- The wire set of the graph: a list of (source output pin, destination
input pin) edges without duplicates by construction. -/
abbrev Wires := List (OutPinId × InPinId)

/-- Modelled from the spec: `Snarl::disconnect` (graph mutation operation
exposed to the Connection Protocol) removes the wire from the given output
pin to the given input pin. -/
def disconnectWire (ws : Wires) (src : OutPinId) (dst : InPinId) : Wires :=
  ws.filter (fun w => decide (w ≠ (src, dst)))

/-- Modelled from the spec: `Snarl::connect` (graph mutation operation
exposed to the Connection Protocol) adds a wire from the given output pin
to the given input pin; adding an existing wire leaves the set unchanged. -/
def connectWire (ws : Wires) (src : OutPinId) (dst : InPinId) : Wires :=
  if (src, dst) ∈ ws then ws else (src, dst) :: ws

/-- Modelled from the spec: the `remotes` of an input pin are the output
pins currently wired to it. -/
def remotesOf (ws : Wires) (dst : InPinId) : List OutPinId :=
  (ws.filter (fun w => decide (w.2 = dst))).map Prod.fst

/-- Number of incoming wires of an input pin. -/
def countIn (ws : Wires) (dst : InPinId) : ℕ :=
  (ws.filter (fun w => decide (w.2 = dst))).length

/-- The single-incoming-edge invariant: every input pin has at most one
incoming wire. -/
def WiresInvariant (ws : Wires) : Prop :=
  ∀ dst : InPinId, countIn ws dst ≤ 1

/-- Embeds `OutPin` as handed to the viewer: id plus current remotes. -/
structure OutPin where
  id : OutPinId
  remotes : List InPinId
deriving DecidableEq, Repr

/-- Embeds `InPin` as handed to the viewer: id plus current remotes. -/
structure InPin where
  id : InPinId
  remotes : List OutPinId
deriving DecidableEq, Repr

/-- Modelled from the spec: the library hands the viewer an `InPin` whose
`remotes` list the output pins currently connected to it. -/
def mkInPin (ws : Wires) (id : InPinId) : InPin := ⟨id, remotesOf ws id⟩

/-- Modelled from the spec: the library hands the viewer an `OutPin` whose
`remotes` list the input pins currently connected from it. -/
def mkOutPin (ws : Wires) (id : OutPinId) : OutPin :=
  ⟨id, (ws.filter (fun w => decide (w.1 = id))).map Prod.snd⟩

/-- Embeds `UnOp` from `examples/demo.rs`. -/
inductive UnOp where
  | Pos
  | Neg
deriving DecidableEq, Repr

/-- Embeds `BinOp` from `examples/demo.rs`. -/
inductive BinOp where
  | Add
  | Sub
  | Mul
  | Div
deriving DecidableEq, Repr

/-- Embeds `Expr` from `examples/demo.rs` (`f64` literals as rationals). -/
inductive Expr where
  | Var (name : String)
  | Val (v : ℚ)
  | UnOp (op : UnOp) (expr : Expr)
  | BinOp (lhs : Expr) (op : BinOp) (rhs : Expr)
deriving DecidableEq, Repr

/-- Embeds `ExprNode` from `examples/demo.rs`. -/
structure ExprNode where
  text : String
  bindings : List String
  values : List ℚ
  expr : Expr
deriving DecidableEq, Repr

/-- Embeds `DemoNode` from `examples/demo.rs`. -/
inductive DemoNode where
  | Sink
  | Number (v : ℚ)
  | String (s : String)
  | ShowImage (uri : String)
  | ExprNode (e : Snarl.ExprNode)
deriving DecidableEq, Repr

/-- Outcome of the validation `match` at the head of
`DemoViewer::connect`: fall through to the mutation (`proceed`), early
`return` (`reject`), or `unreachable!` (`panic`). -/
inductive ConnectDecision where
  | proceed
  | reject
  | panic
deriving DecidableEq, Repr

/-- The validation `match` of `DemoViewer::connect`, arm for arm in source
order; `input_idx` is `to.id.input` for the guarded `String → ExprNode`
arm. -/
def demoValidate (fromNode toNode : DemoNode) (input_idx : ℕ) : ConnectDecision :=
  match fromNode, toNode with
  | .Sink, _ => .panic
  | _, .Sink => .proceed
  | _, .Number _ => .panic
  | _, .String _ => .panic
  | .Number _, .ShowImage _ => .reject
  | .ShowImage _, .ShowImage _ => .reject
  | .String _, .ShowImage _ => .proceed
  | .ExprNode _, .ExprNode _ => .proceed
  | .Number _, .ExprNode _ => .proceed
  | .String _, .ExprNode _ => if input_idx = 0 then .proceed else .reject
  | .ShowImage _, .ExprNode _ => .reject
  | .ExprNode _, .ShowImage _ => .reject

/-- The graph state: node storage (stable ids, `none` for absent ids) and
the wire set. -/
structure SnarlGraph where
  nodes : ℕ → Option DemoNode
  wires : Wires

/-- The disconnect loop of `DemoViewer::connect`:
`for &remote in &to.remotes { snarl.disconnect(remote, to.id); }`. -/
def disconnectAll (ws : Wires) (rs : List OutPinId) (dst : InPinId) : Wires :=
  rs.foldl (fun acc remote => disconnectWire acc remote dst) ws

/-- Embeds `DemoViewer::connect` from `examples/demo.rs`: validate the node pair,
then on the fall-through path disconnect every remote of the destination
pin and connect the new wire.  `none` models the `unreachable!` arms and an
out-of-bounds node index (both panics in Rust). -/
def DemoViewer.connect (snarl : SnarlGraph) (f : OutPin) (t : InPin) :
    Option SnarlGraph :=
  match snarl.nodes f.id.node, snarl.nodes t.id.node with
  | some fromNode, some toNode =>
      match demoValidate fromNode toNode t.id.input with
      | .panic => none
      | .reject => some snarl
      | .proceed =>
          some { snarl with
            wires := connectWire (disconnectAll snarl.wires t.remotes t.id) f.id t.id }
  | _, _ => none

/-- The successive wire states of the disconnect loop: the state before
the loop and the state after each `snarl.disconnect` call. -/
def disconnectStates (ws : Wires) (rs : List OutPinId) (dst : InPinId) : List Wires :=
  match rs with
  | [] => [ws]
  | r :: rest => ws :: disconnectStates (disconnectWire ws r dst) rest dst

/-- The sequence of wire states a redraw could observe during one mediated
connect: the initial state, the state after each `snarl.disconnect` of the
loop, and the state after the final `snarl.connect`.  On the reject and
panic paths the wire set is never touched. -/
def mediatedTrace (snarl : SnarlGraph) (f : OutPin) (t : InPin) : List Wires :=
  match snarl.nodes f.id.node, snarl.nodes t.id.node with
  | some fromNode, some toNode =>
      match demoValidate fromNode toNode t.id.input with
      | .proceed =>
          disconnectStates snarl.wires t.remotes t.id
            ++ [connectWire (disconnectAll snarl.wires t.remotes t.id) f.id t.id]
      | _ => [snarl.wires]
  | _, _ => [snarl.wires]

/-- A sequence of connect operations mediated by the Connection Protocol:
each step builds the pins from the current state (modelled from the spec)
and runs `DemoViewer::connect`. -/
def runConnects (snarl : SnarlGraph) (ops : List (OutPinId × InPinId)) :
    Option SnarlGraph :=
  ops.foldlM
    (fun g op => DemoViewer.connect g (mkOutPin g.wires op.1) (mkInPin g.wires op.2))
    snarl

/-! ## Theorems -/

/-- C5: `screen_pos_to_graph` computes `(screen_pos + offset − rect.center) / scale`;
for the viewport with rect `[0,0]-[800,600]`, scale `2`, offset `(0,0)`,
screen `(400,300)` maps to graph `(0,0)` and screen `(500,300)` maps to
graph `(50,0)`. -/
theorem C5_screen_pos_to_graph_formula :
    (∀ (v : Viewport) (p : Pos2),
        v.screen_pos_to_graph p =
          ⟨(p.x + v.offset.x - v.rect.center.x) / v.scale,
           (p.y + v.offset.y - v.rect.center.y) / v.scale⟩)
    ∧ (Viewport.mk ⟨⟨0, 0⟩, ⟨800, 600⟩⟩ 2 ⟨0, 0⟩).screen_pos_to_graph ⟨400, 300⟩
        = ⟨0, 0⟩
    ∧ (Viewport.mk ⟨⟨0, 0⟩, ⟨800, 600⟩⟩ 2 ⟨0, 0⟩).screen_pos_to_graph ⟨500, 300⟩
        = ⟨50, 0⟩ := by
  refine ⟨fun v p => rfl, ?_, ?_⟩ <;>
    norm_num [Viewport.screen_pos_to_graph, Pos2.addVec, Pos2.subVec,
      Pos2.divScalar, Pos2.to_vec2, Rect.center, Pos2.mk.injEq]

/-- C1: for every viewport with positive scale, the screen→graph
conversions are inverted exactly by the graph→screen conversions, for
positions, vectors and scalar sizes (exact in the rational model of the
floats). -/
theorem C1_viewport_round_trip (v : Viewport) (p : Pos2) (q : Vec2) (s : ℚ)
    (hs : 0 < v.scale) :
    v.graph_pos_to_screen (v.screen_pos_to_graph p) = p
    ∧ v.graph_vec_to_screen (v.screen_vec_to_graph q) = q
    ∧ v.graph_size_to_screen (v.screen_size_to_graph s) = s := by
  have h0 : v.scale ≠ 0 := ne_of_gt hs
  obtain ⟨px, py⟩ := p
  obtain ⟨qx, qy⟩ := q
  refine ⟨?_, ?_, ?_⟩ <;>
    simp only [Viewport.graph_pos_to_screen, Viewport.screen_pos_to_graph,
      Viewport.graph_vec_to_screen, Viewport.screen_vec_to_graph,
      Viewport.graph_size_to_screen, Viewport.screen_size_to_graph,
      Pos2.addVec, Pos2.subVec, Pos2.divScalar, Pos2.mulScalar,
      Vec2.mulScalar, Vec2.divScalar, Pos2.to_vec2, Pos2.mk.injEq, Vec2.mk.injEq]
  · exact ⟨by field_simp; ring, by field_simp; ring⟩
  · exact ⟨by field_simp, by field_simp⟩
  · field_simp

/-- Witness for C1 at a concrete viewport and inputs. -/
theorem C1_viewport_round_trip_witness :
    (0 : ℚ) < (Viewport.mk ⟨⟨0, 0⟩, ⟨800, 600⟩⟩ 2 ⟨3, 4⟩).scale
    ∧ ((Viewport.mk ⟨⟨0, 0⟩, ⟨800, 600⟩⟩ 2 ⟨3, 4⟩).graph_pos_to_screen
        ((Viewport.mk ⟨⟨0, 0⟩, ⟨800, 600⟩⟩ 2 ⟨3, 4⟩).screen_pos_to_graph ⟨7, 9⟩) = ⟨7, 9⟩
      ∧ (Viewport.mk ⟨⟨0, 0⟩, ⟨800, 600⟩⟩ 2 ⟨3, 4⟩).graph_vec_to_screen
        ((Viewport.mk ⟨⟨0, 0⟩, ⟨800, 600⟩⟩ 2 ⟨3, 4⟩).screen_vec_to_graph ⟨1, 2⟩) = ⟨1, 2⟩
      ∧ (Viewport.mk ⟨⟨0, 0⟩, ⟨800, 600⟩⟩ 2 ⟨3, 4⟩).graph_size_to_screen
        ((Viewport.mk ⟨⟨0, 0⟩, ⟨800, 600⟩⟩ 2 ⟨3, 4⟩).screen_size_to_graph 5) = 5) :=
  ⟨by decide,
   C1_viewport_round_trip (Viewport.mk ⟨⟨0, 0⟩, ⟨800, 600⟩⟩ 2 ⟨3, 4⟩) ⟨7, 9⟩ ⟨1, 2⟩ 5
     (by decide)⟩

/-- C6: with a primary drag-start on the background and Shift held, the
default policy asserts `start_select_area` and denies `node_move` on the
same response and input, so box-select and node-move are never
simultaneously asserted. -/
theorem C6_select_area_excludes_node_move (r : Response) (i : InputState)
    (hd : r.drag_started_by .Primary = true) (hs : i.modifiers.shift = true) :
    DefaultGraphEvents.start_select_area r i = true
    ∧ DefaultGraphEvents.node_move r i = false := by
  refine ⟨?_, ?_⟩ <;>
    simp [DefaultGraphEvents.start_select_area, DefaultGraphEvents.node_move, hd, hs]

/-- Witness for C6 at a concrete response and input state. -/
theorem C6_select_area_excludes_node_move_witness :
    (Response.mk false false true false (fun _ => false) (fun _ => true)
        (fun _ => true) (fun _ => false) ⟨1, 1⟩).drag_started_by .Primary = true
    ∧ (InputState.mk ⟨true, false⟩ ⟨fun _ => false, ⟨0, 0⟩⟩
        (fun _ => false)).modifiers.shift = true
    ∧ (DefaultGraphEvents.start_select_area
        (Response.mk false false true false (fun _ => false) (fun _ => true)
          (fun _ => true) (fun _ => false) ⟨1, 1⟩)
        (InputState.mk ⟨true, false⟩ ⟨fun _ => false, ⟨0, 0⟩⟩ (fun _ => false)) = true
      ∧ DefaultGraphEvents.node_move
        (Response.mk false false true false (fun _ => false) (fun _ => true)
          (fun _ => true) (fun _ => false) ⟨1, 1⟩)
        (InputState.mk ⟨true, false⟩ ⟨fun _ => false, ⟨0, 0⟩⟩ (fun _ => false)) = false) :=
  ⟨rfl, rfl,
   C6_select_area_excludes_node_move
     (Response.mk false false true false (fun _ => false) (fun _ => true)
       (fun _ => true) (fun _ => false) ⟨1, 1⟩)
     (InputState.mk ⟨true, false⟩ ⟨fun _ => false, ⟨0, 0⟩⟩ (fun _ => false))
     rfl rfl⟩

/-- C3: for the click-based policy starting at drag-mode none, a primary
click with neither Shift nor Ctrl/Cmd latches drag-mode to node-dragging
and returns `true`; a subsequent Escape key-press unlatches it and returns
`false` on that same frame; while latched, `node_move_delta` is the raw
pointer delta, and the zero vector otherwise. -/
theorem C3_click_policy_state_machine (r1 r2 : Response) (i1 i2 : InputState)
    (h1 : i1.modifiers.shift = false) (h2 : i1.modifiers.command = false)
    (h3 : r1.clicked_by .Primary = true)
    (h4 : i2.key_pressed .Escape = true) :
    ClickGraphEvents.default.node_move r1 i1 = (true, ⟨.Node⟩)
    ∧ (ClickGraphEvents.mk .Node).node_move r2 i2 = (false, ⟨.None⟩)
    ∧ (∀ (st : ClickGraphEvents) (r : Response) (i : InputState),
        st.drag = .Node → st.node_move_delta r i = i.pointer.delta)
    ∧ (∀ (st : ClickGraphEvents) (r : Response) (i : InputState),
        st.drag ≠ .Node → st.node_move_delta r i = (0 : Vec2)) := by
  refine ⟨?_, ?_, ?_, ?_⟩
  · simp [ClickGraphEvents.node_move, ClickGraphEvents.default, h1, h2, h3]
  · simp [ClickGraphEvents.node_move, h4]
  · intro st r i h
    simp [ClickGraphEvents.node_move_delta, h]
  · intro st r i h
    simp [ClickGraphEvents.node_move_delta, h]

/-- Witness for C3 at concrete responses and inputs. -/
theorem C3_click_policy_state_machine_witness :
    (InputState.mk ⟨false, false⟩ ⟨fun _ => false, ⟨2, 3⟩⟩
        (fun _ => false)).modifiers.shift = false
    ∧ (InputState.mk ⟨false, false⟩ ⟨fun _ => false, ⟨2, 3⟩⟩
        (fun _ => false)).modifiers.command = false
    ∧ (Response.mk false false false false (fun _ => true) (fun _ => false)
        (fun _ => false) (fun _ => false) ⟨0, 0⟩).clicked_by .Primary = true
    ∧ (InputState.mk ⟨false, false⟩ ⟨fun _ => false, ⟨2, 3⟩⟩
        (fun _ => true)).key_pressed .Escape = true
    ∧ (ClickGraphEvents.default.node_move
        (Response.mk false false false false (fun _ => true) (fun _ => false)
          (fun _ => false) (fun _ => false) ⟨0, 0⟩)
        (InputState.mk ⟨false, false⟩ ⟨fun _ => false, ⟨2, 3⟩⟩ (fun _ => false))
        = (true, ⟨.Node⟩)
      ∧ (ClickGraphEvents.mk .Node).node_move
        (Response.mk false false false false (fun _ => false) (fun _ => false)
          (fun _ => false) (fun _ => false) ⟨0, 0⟩)
        (InputState.mk ⟨false, false⟩ ⟨fun _ => false, ⟨2, 3⟩⟩ (fun _ => true))
        = (false, ⟨.None⟩)
      ∧ (∀ (st : ClickGraphEvents) (r : Response) (i : InputState),
          st.drag = .Node → st.node_move_delta r i = i.pointer.delta)
      ∧ (∀ (st : ClickGraphEvents) (r : Response) (i : InputState),
          st.drag ≠ .Node → st.node_move_delta r i = (0 : Vec2))) :=
  ⟨rfl, rfl, rfl, rfl,
   C3_click_policy_state_machine
     (Response.mk false false false false (fun _ => true) (fun _ => false)
       (fun _ => false) (fun _ => false) ⟨0, 0⟩)
     (Response.mk false false false false (fun _ => false) (fun _ => false)
       (fun _ => false) (fun _ => false) ⟨0, 0⟩)
     (InputState.mk ⟨false, false⟩ ⟨fun _ => false, ⟨2, 3⟩⟩ (fun _ => false))
     (InputState.mk ⟨false, false⟩ ⟨fun _ => false, ⟨2, 3⟩⟩ (fun _ => true))
     rfl rfl rfl rfl⟩

/-- C9: `BackgroundPattern` equality is `true` exactly for two `Grid`
variants with equal payloads (spacing and angle); `NoPattern` does not
equal itself, no `Custom` value equals itself, and the relation is not
reflexive. -/
theorem C9_background_pattern_eq :
    (∀ a b : BackgroundPattern, a.eq b = true ↔
        ∃ l r : Grid, a = .Grid l ∧ b = .Grid r ∧ l = r)
    ∧ BackgroundPattern.eq .NoPattern .NoPattern = false
    ∧ (∀ f : CustomBackground, BackgroundPattern.eq (.Custom f) (.Custom f) = false)
    ∧ ¬ (∀ a : BackgroundPattern, a.eq a = true) := by
  refine ⟨?_, rfl, fun f => rfl, ?_⟩
  · intro a b
    cases a <;> cases b <;> simp [BackgroundPattern.eq]
  · intro h
    exact absurd (h .NoPattern) (by simp [BackgroundPattern.eq])

/-- Every `GraphEvents` method call leaves a `ClickGraphEvents` state whose
drag mode is not `Wire`, provided it was not `Wire` before: only
`node_move` writes the state, and it writes only `None` or `Node`. -/
theorem ClickGraphEvents.step_preserves_ne_wire (s : ClickGraphEvents)
    (m : GEMethod) (r : Response) (i : InputState) (h : s.drag ≠ .Wire) :
    (s.step m r i).drag ≠ .Wire := by
  cases m <;> try exact h
  obtain ⟨d⟩ := s
  cases d with
  | None =>
      simp only [ClickGraphEvents.step, ClickGraphEvents.node_move]
      split <;> simp
  | Node =>
      simp only [ClickGraphEvents.step, ClickGraphEvents.node_move]
      split <;> simp
  | Wire => exact absurd rfl h

/-- C10: starting from the `Default` value of `ClickGraphEvents`, no
sequence of `GraphEvents` method calls ever reaches the `Wire` drag mode:
the reachable drag modes are exactly `None` and `Node`, so the `Wire`
branch of `node_move` is unreachable. -/
theorem C10_click_policy_wire_unreachable
    (calls : List (GEMethod × Response × InputState)) :
    (ClickGraphEvents.default.run calls).drag = .None
    ∨ (ClickGraphEvents.default.run calls).drag = .Node := by
  have key : ∀ (s : ClickGraphEvents), s.drag ≠ .Wire →
      (s.run calls).drag ≠ .Wire := by
    induction calls with
    | nil => exact fun s h => h
    | cons c cs ih =>
        intro s h
        exact ih _ (ClickGraphEvents.step_preserves_ne_wire s c.1 c.2.1 c.2.2 h)
  have h := key ClickGraphEvents.default (by simp [ClickGraphEvents.default])
  cases hd : (ClickGraphEvents.default.run calls).drag with
  | None => exact Or.inl rfl
  | Node => exact Or.inr rfl
  | Wire => exact absurd hd h

/-- C8: every line segment the grid renderer paints uses the configured
stroke with its width multiplied by `max(scale, 1)` and its color (the
alpha channel included) multiplied by `min(scale, 1)`. -/
theorem C8_grid_stroke_scaling (g : Grid) (style : SnarlStyle) (v : Viewport)
    (ui : Ui) (fa : ℚ → Rot2) (cmd : PaintCmd)
    (hmem : cmd ∈ g.draw style v ui fa) :
    cmd.stroke = Stroke.new
        ((style.background_pattern_stroke.getD ui.noninteractive_bg_stroke).width
          * max v.scale 1)
        ((style.background_pattern_stroke.getD ui.noninteractive_bg_stroke).color.gamma_multiply
          (min v.scale 1))
    ∧ cmd.stroke.color.a =
        (style.background_pattern_stroke.getD ui.noninteractive_bg_stroke).color.a
          * min v.scale 1 := by
  have h1 : cmd.stroke = Stroke.new
      ((style.background_pattern_stroke.getD ui.noninteractive_bg_stroke).width
        * max v.scale 1)
      ((style.background_pattern_stroke.getD ui.noninteractive_bg_stroke).color.gamma_multiply
        (min v.scale 1)) := by
    simp only [Grid.draw, List.mem_append, List.mem_map] at hmem
    rcases hmem with ⟨i, hi, rfl⟩ | ⟨i, hi, rfl⟩ <;> rfl
  exact ⟨h1, by rw [h1]; rfl⟩

/-- Witness for C8 at a concrete grid, style, viewport and painted segment. -/
theorem C8_grid_stroke_scaling_witness :
    (PaintCmd.mk ⟨0, 0⟩ ⟨0, 0⟩ (Stroke.new 2 ⟨3, 4, 5, 6⟩)
        ∈ (Grid.mk ⟨1, 1⟩ 0).draw (SnarlStyle.mk none) ⟨⟨⟨0, 0⟩, ⟨0, 0⟩⟩, 1, ⟨0, 0⟩⟩
          (Ui.mk 1 ⟨2, ⟨3, 4, 5, 6⟩⟩) (fun _ => Rot2.mk 0 1))
    ∧ ((PaintCmd.mk ⟨0, 0⟩ ⟨0, 0⟩ (Stroke.new 2 ⟨3, 4, 5, 6⟩)).stroke
        = Stroke.new
          (((SnarlStyle.mk none).background_pattern_stroke.getD
              (Ui.mk 1 ⟨2, ⟨3, 4, 5, 6⟩⟩).noninteractive_bg_stroke).width
            * max (⟨⟨⟨0, 0⟩, ⟨0, 0⟩⟩, 1, ⟨0, 0⟩⟩ : Viewport).scale 1)
          (((SnarlStyle.mk none).background_pattern_stroke.getD
              (Ui.mk 1 ⟨2, ⟨3, 4, 5, 6⟩⟩).noninteractive_bg_stroke).color.gamma_multiply
            (min (⟨⟨⟨0, 0⟩, ⟨0, 0⟩⟩, 1, ⟨0, 0⟩⟩ : Viewport).scale 1))
      ∧ (PaintCmd.mk ⟨0, 0⟩ ⟨0, 0⟩ (Stroke.new 2 ⟨3, 4, 5, 6⟩)).stroke.color.a
        = ((SnarlStyle.mk none).background_pattern_stroke.getD
              (Ui.mk 1 ⟨2, ⟨3, 4, 5, 6⟩⟩).noninteractive_bg_stroke).color.a
            * min (⟨⟨⟨0, 0⟩, ⟨0, 0⟩⟩, 1, ⟨0, 0⟩⟩ : Viewport).scale 1) := by
  have hmem : PaintCmd.mk ⟨0, 0⟩ ⟨0, 0⟩ (Stroke.new 2 ⟨3, 4, 5, 6⟩)
      ∈ (Grid.mk ⟨1, 1⟩ 0).draw (SnarlStyle.mk none) ⟨⟨⟨0, 0⟩, ⟨0, 0⟩⟩, 1, ⟨0, 0⟩⟩
        (Ui.mk 1 ⟨2, ⟨3, 4, 5, 6⟩⟩) (fun _ => Rot2.mk 0 1) := by
    norm_num [Grid.draw, gridIndices, Rect.rotate_bb, Rot2.inverse, Rot2.length_sq,
      Rot2.mulVec, Viewport.screen_pos_to_graph, Viewport.graph_pos_to_screen,
      Rect.from_min_max, Rect.center, Pos2.addVec, Pos2.subVec, Pos2.divScalar,
      Pos2.mulScalar, Pos2.to_vec2, Vec2.to_pos2, Stroke.new, Color32.gamma_multiply,
      List.range_succ, List.mem_cons]
  exact ⟨hmem, C8_grid_stroke_scaling _ _ _ _ _ _ hmem⟩

/-- C7: for a fixed screen rectangle, offset and screen position `p`
distinct from the rectangle center, increasing the scale strictly
decreases the Euclidean distance between `screen_pos_to_graph p` and the
graph-space image of the viewport center. -/
theorem C7_zoom_in_contracts_distance (rect : Rect) (offset : Vec2) (p : Pos2)
    (s1 s2 : ℚ) (h1 : 0 < s1) (h12 : s1 < s2) (hp : p ≠ rect.center) :
    Real.sqrt ((Pos2.distSq ((Viewport.mk rect s2 offset).screen_pos_to_graph p)
        ((Viewport.mk rect s2 offset).screen_pos_to_graph rect.center) : ℚ) : ℝ)
      < Real.sqrt ((Pos2.distSq ((Viewport.mk rect s1 offset).screen_pos_to_graph p)
        ((Viewport.mk rect s1 offset).screen_pos_to_graph rect.center) : ℚ) : ℝ) := by
  have h2 : 0 < s2 := h1.trans h12
  have hxy : p.x ≠ rect.center.x ∨ p.y ≠ rect.center.y := by
    by_contra hcon
    push_neg at hcon
    refine hp ?_
    obtain ⟨px, py⟩ := p
    rw [show px = rect.center.x from hcon.1, show py = rect.center.y from hcon.2]
  have hD : (0 : ℚ) < (p.x - rect.center.x) ^ 2 + (p.y - rect.center.y) ^ 2 := by
    rcases hxy with h | h <;>
      nlinarith [sq_nonneg (p.x - rect.center.x), sq_nonneg (p.y - rect.center.y),
        pow_two_pos_of_ne_zero (sub_ne_zero.mpr h)]
  have key : ∀ s : ℚ, s ≠ 0 →
      Pos2.distSq ((Viewport.mk rect s offset).screen_pos_to_graph p)
        ((Viewport.mk rect s offset).screen_pos_to_graph rect.center)
      = ((p.x - rect.center.x) ^ 2 + (p.y - rect.center.y) ^ 2) / s ^ 2 := by
    intro s hs
    simp only [Viewport.screen_pos_to_graph, Pos2.addVec, Pos2.subVec,
      Pos2.divScalar, Pos2.to_vec2, Pos2.distSq]
    field_simp
    ring
  have hq : Pos2.distSq ((Viewport.mk rect s2 offset).screen_pos_to_graph p)
        ((Viewport.mk rect s2 offset).screen_pos_to_graph rect.center)
      < Pos2.distSq ((Viewport.mk rect s1 offset).screen_pos_to_graph p)
        ((Viewport.mk rect s1 offset).screen_pos_to_graph rect.center) := by
    rw [key s2 h2.ne', key s1 h1.ne']
    exact div_lt_div_of_pos_left hD (by positivity)
      (by nlinarith)
  have h0 : (0 : ℝ) ≤ ((Pos2.distSq ((Viewport.mk rect s2 offset).screen_pos_to_graph p)
      ((Viewport.mk rect s2 offset).screen_pos_to_graph rect.center) : ℚ) : ℝ) := by
    have : (0 : ℚ) ≤ Pos2.distSq ((Viewport.mk rect s2 offset).screen_pos_to_graph p)
        ((Viewport.mk rect s2 offset).screen_pos_to_graph rect.center) := by
      unfold Pos2.distSq
      positivity
    exact_mod_cast this
  exact Real.sqrt_lt_sqrt h0 (by exact_mod_cast hq)

/-- Witness for C7 at a concrete rectangle, offset, point and scales. -/
theorem C7_zoom_in_contracts_distance_witness :
    (0 : ℚ) < 1 ∧ (1 : ℚ) < 2
    ∧ (⟨3, 1⟩ : Pos2) ≠ (⟨⟨0, 0⟩, ⟨2, 2⟩⟩ : Rect).center
    ∧ Real.sqrt ((Pos2.distSq
        ((Viewport.mk ⟨⟨0, 0⟩, ⟨2, 2⟩⟩ 2 ⟨0, 0⟩).screen_pos_to_graph ⟨3, 1⟩)
        ((Viewport.mk ⟨⟨0, 0⟩, ⟨2, 2⟩⟩ 2 ⟨0, 0⟩).screen_pos_to_graph
          (⟨⟨0, 0⟩, ⟨2, 2⟩⟩ : Rect).center) : ℚ) : ℝ)
      < Real.sqrt ((Pos2.distSq
        ((Viewport.mk ⟨⟨0, 0⟩, ⟨2, 2⟩⟩ 1 ⟨0, 0⟩).screen_pos_to_graph ⟨3, 1⟩)
        ((Viewport.mk ⟨⟨0, 0⟩, ⟨2, 2⟩⟩ 1 ⟨0, 0⟩).screen_pos_to_graph
          (⟨⟨0, 0⟩, ⟨2, 2⟩⟩ : Rect).center) : ℚ) : ℝ) :=
  ⟨by norm_num, by norm_num,
   by norm_num [Rect.center, Pos2.mk.injEq],
   C7_zoom_in_contracts_distance ⟨⟨0, 0⟩, ⟨2, 2⟩⟩ ⟨0, 0⟩ ⟨3, 1⟩ 1 2
     (by norm_num) (by norm_num)
     (by norm_num [Rect.center, Pos2.mk.injEq])⟩

/-- C4: per axis the grid renderer draws one line for each integer index
from `⌈min/spacing⌉` to `⌊max/spacing⌋` inclusive, so for a visible
pattern-space extent of width `W = max - min` and spacing `S` the line
count on that axis is `⌊W/S⌋` or `⌊W/S⌋ + 1`, independent of how far the
bounds sit from the origin; and `Grid::draw` emits exactly one segment per
such index on each of the two axes. -/
theorem C4_grid_line_count (lo hi S : ℚ) (hS : 0 < S) (hlh : lo ≤ hi) :
    (∀ i : ℤ, i ∈ gridIndices lo hi S ↔ ⌈lo / S⌉ ≤ i ∧ i ≤ ⌊hi / S⌋)
    ∧ ⌊(hi - lo) / S⌋ ≤ ((gridIndices lo hi S).length : ℤ)
    ∧ ((gridIndices lo hi S).length : ℤ) ≤ ⌊(hi - lo) / S⌋ + 1
    ∧ (∀ (g : Grid) (style : SnarlStyle) (v : Viewport) (ui : Ui) (fa : ℚ → Rot2),
        (g.draw style v ui fa).length
          = (gridIndices
              ((Rect.from_min_max (v.screen_pos_to_graph v.rect.min)
                  (v.screen_pos_to_graph v.rect.max)).rotate_bb (fa g.angle).inverse).min.x
              ((Rect.from_min_max (v.screen_pos_to_graph v.rect.min)
                  (v.screen_pos_to_graph v.rect.max)).rotate_bb (fa g.angle).inverse).max.x
              (ui.icon_width * g.spacing.x)).length
            + (gridIndices
              ((Rect.from_min_max (v.screen_pos_to_graph v.rect.min)
                  (v.screen_pos_to_graph v.rect.max)).rotate_bb (fa g.angle).inverse).min.y
              ((Rect.from_min_max (v.screen_pos_to_graph v.rect.min)
                  (v.screen_pos_to_graph v.rect.max)).rotate_bb (fa g.angle).inverse).max.y
              (ui.icon_width * g.spacing.y)).length) := by
  have hfloor_le : ((⌊hi / S⌋ : ℤ) : ℚ) ≤ hi / S := Int.floor_le _
  have hceil_ge : lo / S ≤ ((⌈lo / S⌉ : ℤ) : ℚ) := Int.le_ceil _
  have hlt1 : hi / S < (⌊hi / S⌋ : ℚ) + 1 := Int.lt_floor_add_one _
  have hlt2 : ((⌈lo / S⌉ : ℤ) : ℚ) < lo / S + 1 := Int.ceil_lt_add_one _
  have hW : (hi - lo) / S = hi / S - lo / S := sub_div _ _ _
  have hdraw : ∀ (g : Grid) (style : SnarlStyle) (v : Viewport) (ui : Ui)
      (fa : ℚ → Rot2),
      (g.draw style v ui fa).length
        = (gridIndices
            ((Rect.from_min_max (v.screen_pos_to_graph v.rect.min)
                (v.screen_pos_to_graph v.rect.max)).rotate_bb (fa g.angle).inverse).min.x
            ((Rect.from_min_max (v.screen_pos_to_graph v.rect.min)
                (v.screen_pos_to_graph v.rect.max)).rotate_bb (fa g.angle).inverse).max.x
            (ui.icon_width * g.spacing.x)).length
          + (gridIndices
            ((Rect.from_min_max (v.screen_pos_to_graph v.rect.min)
                (v.screen_pos_to_graph v.rect.max)).rotate_bb (fa g.angle).inverse).min.y
            ((Rect.from_min_max (v.screen_pos_to_graph v.rect.min)
                (v.screen_pos_to_graph v.rect.max)).rotate_bb (fa g.angle).inverse).max.y
            (ui.icon_width * g.spacing.y)).length := by
    intro g style v ui fa
    simp only [Grid.draw, List.length_append, List.length_map]
  by_cases hneg : ⌊hi / S⌋ - ⌈lo / S⌉ < 0
  · have hempty : gridIndices lo hi S = [] := by
      unfold gridIndices
      rw [if_pos hneg]
    have hcast : ((⌊hi / S⌋ : ℤ) : ℚ) + 1 ≤ ((⌈lo / S⌉ : ℤ) : ℚ) := by
      exact_mod_cast (by omega : ⌊hi / S⌋ + 1 ≤ ⌈lo / S⌉)
    have hfz : ⌊(hi - lo) / S⌋ = 0 := by
      have h0le : (0 : ℤ) ≤ ⌊(hi - lo) / S⌋ :=
        Int.floor_nonneg.mpr (div_nonneg (by linarith) hS.le)
      have h1gt : ⌊(hi - lo) / S⌋ < 1 := by
        apply Int.floor_lt.mpr
        push_cast
        rw [hW]
        linarith
      omega
    refine ⟨?_, ?_, ?_, hdraw⟩
    · intro i
      rw [hempty]
      simp only [List.not_mem_nil, false_iff, not_and, not_le]
      omega
    · rw [hempty]
      simp [hfz]
    · rw [hempty]
      simp [hfz]
  · have hlist : gridIndices lo hi S
        = (List.range (⌊hi / S⌋ - ⌈lo / S⌉).toNat.succ).map
            (fun k : ℕ => ⌈lo / S⌉ + (k : ℤ)) := by
      unfold gridIndices
      rw [if_neg hneg]
    have hlen : ((gridIndices lo hi S).length : ℤ) = ⌊hi / S⌋ - ⌈lo / S⌉ + 1 := by
      rw [hlist, List.length_map, List.length_range]
      omega
    refine ⟨?_, ?_, ?_, hdraw⟩
    · intro i
      rw [hlist]
      simp only [List.mem_map, List.mem_range]
      constructor
      · rintro ⟨k, hk, rfl⟩
        have hk2 : (k : ℤ) < (⌊hi / S⌋ - ⌈lo / S⌉).toNat + 1 := by exact_mod_cast hk
        omega
      · rintro ⟨ha, hb⟩
        exact ⟨(i - ⌈lo / S⌉).toNat, by omega, by omega⟩
    · rw [hlen]
      have hstep : ⌊(hi - lo) / S⌋ < ⌊hi / S⌋ - ⌈lo / S⌉ + 2 := by
        apply Int.floor_lt.mpr
        push_cast
        rw [hW]
        linarith
      omega
    · rw [hlen]
      have hstep : ⌊hi / S⌋ - ⌈lo / S⌉ ≤ ⌊(hi - lo) / S⌋ := by
        apply Int.le_floor.mpr
        push_cast
        rw [hW]
        linarith
      omega

/-- Witness for C4 at concrete bounds and spacing. -/
theorem C4_grid_line_count_witness :
    (0 : ℚ) < 1 ∧ (-(7 : ℚ)/2) ≤ (9 : ℚ)/2
    ∧ ((∀ i : ℤ, i ∈ gridIndices (-(7 : ℚ)/2) ((9 : ℚ)/2) 1 ↔
          ⌈(-(7 : ℚ)/2) / 1⌉ ≤ i ∧ i ≤ ⌊((9 : ℚ)/2) / 1⌋)
      ∧ ⌊(((9 : ℚ)/2) - (-(7 : ℚ)/2)) / 1⌋
          ≤ ((gridIndices (-(7 : ℚ)/2) ((9 : ℚ)/2) 1).length : ℤ)
      ∧ ((gridIndices (-(7 : ℚ)/2) ((9 : ℚ)/2) 1).length : ℤ)
          ≤ ⌊(((9 : ℚ)/2) - (-(7 : ℚ)/2)) / 1⌋ + 1
      ∧ (∀ (g : Grid) (style : SnarlStyle) (v : Viewport) (ui : Ui) (fa : ℚ → Rot2),
          (g.draw style v ui fa).length
            = (gridIndices
                ((Rect.from_min_max (v.screen_pos_to_graph v.rect.min)
                    (v.screen_pos_to_graph v.rect.max)).rotate_bb (fa g.angle).inverse).min.x
                ((Rect.from_min_max (v.screen_pos_to_graph v.rect.min)
                    (v.screen_pos_to_graph v.rect.max)).rotate_bb (fa g.angle).inverse).max.x
                (ui.icon_width * g.spacing.x)).length
              + (gridIndices
                ((Rect.from_min_max (v.screen_pos_to_graph v.rect.min)
                    (v.screen_pos_to_graph v.rect.max)).rotate_bb (fa g.angle).inverse).min.y
                ((Rect.from_min_max (v.screen_pos_to_graph v.rect.min)
                    (v.screen_pos_to_graph v.rect.max)).rotate_bb (fa g.angle).inverse).max.y
                (ui.icon_width * g.spacing.y)).length)) :=
  ⟨by norm_num, by norm_num,
   C4_grid_line_count (-(7 : ℚ)/2) ((9 : ℚ)/2) 1 (by norm_num) (by norm_num)⟩

/-- Disconnecting one wire never increases the number of wires into any
pin. -/
theorem countIn_disconnectWire_le (ws : Wires) (src : OutPinId) (dst d : InPinId) :
    countIn (disconnectWire ws src dst) d ≤ countIn ws d := by
  unfold countIn disconnectWire
  exact ((List.filter_sublist ws).filter _).length_le

/-- The disconnect loop never increases the number of wires into any pin. -/
theorem countIn_disconnectAll_le (ws : Wires) (rs : List OutPinId) (dst d : InPinId) :
    countIn (disconnectAll ws rs dst) d ≤ countIn ws d := by
  induction rs generalizing ws with
  | nil => exact le_rfl
  | cons r rest ih =>
      exact le_trans (ih (disconnectWire ws r dst))
        (countIn_disconnectWire_le ws r dst d)

/-- A wire surviving the disconnect loop was present before, and if it
points at the loop's destination pin its source is not among the
disconnected remotes. -/
theorem mem_disconnectAll (ws : Wires) (rs : List OutPinId) (dst : InPinId)
    (w : OutPinId × InPinId) (hw : w ∈ disconnectAll ws rs dst) :
    w ∈ ws ∧ (w.2 = dst → w.1 ∉ rs) := by
  induction rs generalizing ws with
  | nil => exact ⟨hw, fun _ => List.not_mem_nil _⟩
  | cons r rest ih =>
      obtain ⟨h1, h2⟩ := ih (disconnectWire ws r dst) hw
      rw [disconnectWire, List.mem_filter] at h1
      refine ⟨h1.1, ?_⟩
      intro hdst
      simp only [List.mem_cons, not_or]
      refine ⟨?_, h2 hdst⟩
      intro hr
      have hne : w ≠ (r, dst) := by simpa using h1.2
      apply hne
      obtain ⟨w1, w2⟩ := w
      simp only at hr hdst
      rw [hr, hdst]

/-- After disconnecting every remote of the destination pin, the
destination pin has no incoming wires at all. -/
theorem countIn_disconnectAll_remotes (ws : Wires) (dst : InPinId) :
    countIn (disconnectAll ws (remotesOf ws dst) dst) dst = 0 := by
  unfold countIn
  rw [List.length_eq_zero, List.filter_eq_nil_iff]
  intro w hw
  obtain ⟨h1, h2⟩ := mem_disconnectAll ws (remotesOf ws dst) dst w hw
  simp only [decide_eq_true_eq]
  intro hdst
  exact h2 hdst (List.mem_map.mpr ⟨w, List.mem_filter.mpr ⟨h1, by simpa using hdst⟩, rfl⟩)

/-- Connecting one wire increases the number of wires into the destination
pin by at most one and leaves every other pin's count unchanged or lower. -/
theorem countIn_connectWire_le (ws : Wires) (src : OutPinId) (dst d : InPinId) :
    countIn (connectWire ws src dst) d ≤ countIn ws d + (if d = dst then 1 else 0) := by
  unfold connectWire countIn
  by_cases hmem : (src, dst) ∈ ws
  · rw [if_pos hmem]
    split <;> omega
  · rw [if_neg hmem, List.filter_cons]
    by_cases hd : d = dst
    · subst hd
      simp
    · have : (decide ((src, dst).2 = d)) = false := by simpa using Ne.symm hd
      rw [this]
      simp [hd]

/-- A single mediated connect preserves the single-incoming-edge
invariant when the destination pin carries its current remotes. -/
theorem connect_preserves_invariant (g : SnarlGraph) (f : OutPin) (dst : InPinId)
    (hinv : WiresInvariant g.wires) (g2 : SnarlGraph)
    (hc : DemoViewer.connect g f (mkInPin g.wires dst) = some g2) :
    WiresInvariant g2.wires := by
  unfold DemoViewer.connect at hc
  split at hc
  · split at hc
    · exact absurd hc (by simp)
    · cases hc
      exact hinv
    · cases hc
      intro d
      have h1 := countIn_connectWire_le
        (disconnectAll g.wires (mkInPin g.wires dst).remotes (mkInPin g.wires dst).id)
        f.id (mkInPin g.wires dst).id d
      by_cases hd : d = dst
      · subst hd
        have h0 : countIn (disconnectAll g.wires (remotesOf g.wires d) d) d = 0 :=
          countIn_disconnectAll_remotes g.wires d
        simp only [mkInPin, eq_self_iff_true, if_true] at h1 ⊢
        omega
      · have h2 := countIn_disconnectAll_le g.wires
          (mkInPin g.wires dst).remotes (mkInPin g.wires dst).id d
        have h3 := hinv d
        simp only [mkInPin] at h1 h2 ⊢
        rw [if_neg hd] at h1
        omega
  · exact absurd hc (by simp)

/-- C2: every sequence of connect operations mediated by the
`DemoViewer::connect` validator preserves the single-incoming-edge
invariant, and during one mediated connect no state visible to a redraw —
before the loop, after each disconnect, or after the final connect — gives
the destination pin more than one incoming wire. -/
theorem C2_connection_protocol :
    (∀ (g : SnarlGraph) (ops : List (OutPinId × InPinId)) (g2 : SnarlGraph),
        WiresInvariant g.wires → runConnects g ops = some g2 →
        WiresInvariant g2.wires)
    ∧ (∀ (g : SnarlGraph) (f : OutPin) (dst : InPinId),
        WiresInvariant g.wires →
        ∀ ws ∈ mediatedTrace g f (mkInPin g.wires dst), countIn ws dst ≤ 1) := by
  constructor
  · intro g ops
    induction ops generalizing g with
    | nil =>
        intro g2 hinv h
        unfold runConnects at h
        simp only [List.foldlM_nil] at h
        cases h
        exact hinv
    | cons op rest ih =>
        intro g2 hinv h
        unfold runConnects at h
        rw [List.foldlM_cons] at h
        cases hc : DemoViewer.connect g (mkOutPin g.wires op.1) (mkInPin g.wires op.2) with
        | none => rw [hc] at h; simp at h
        | some g1 =>
            rw [hc] at h
            simp only [Option.bind_eq_bind, Option.some_bind] at h
            exact ih g1 g2
              (connect_preserves_invariant g (mkOutPin g.wires op.1) op.2 hinv g1 hc) h
  · intro g f dst hinv ws hws
    have hstates : ∀ (w0 : Wires) (rs : List OutPinId) (x : Wires),
        x ∈ disconnectStates w0 rs dst → countIn x dst ≤ countIn w0 dst := by
      intro w0 rs
      induction rs generalizing w0 with
      | nil =>
          intro x hx
          simp only [disconnectStates, List.mem_singleton] at hx
          exact hx ▸ le_rfl
      | cons r rest ihs =>
          intro x hx
          simp only [disconnectStates, List.mem_cons] at hx
          rcases hx with rfl | hx
          · exact le_rfl
          · exact le_trans (ihs (disconnectWire w0 r dst) x hx)
              (countIn_disconnectWire_le w0 r dst dst)
    unfold mediatedTrace at hws
    split at hws
    · split at hws
      · rcases List.mem_append.mp hws with hmem | hmem
        · exact le_trans (hstates g.wires (mkInPin g.wires dst).remotes ws hmem)
            (hinv dst)
        · simp only [List.mem_singleton] at hmem
          subst hmem
          have h1 := countIn_connectWire_le
            (disconnectAll g.wires (mkInPin g.wires dst).remotes
              (mkInPin g.wires dst).id) f.id (mkInPin g.wires dst).id dst
          have h0 : countIn (disconnectAll g.wires (remotesOf g.wires dst) dst) dst
              = 0 := countIn_disconnectAll_remotes g.wires dst
          simp only [mkInPin, eq_self_iff_true, if_true] at h1 ⊢
          omega
      · simp only [List.mem_singleton] at hws
        exact hws ▸ hinv dst
    · simp only [List.mem_singleton] at hws
      exact hws ▸ hinv dst

/-- Witness for C2 at a concrete graph (a `String` node wired into a
`Sink` node) and a one-element operation sequence. -/
theorem C2_connection_protocol_witness :
    WiresInvariant ([] : Wires)
    ∧ runConnects
        (SnarlGraph.mk
          (fun n => if n = 0 then some (.String "a")
            else if n = 1 then some .Sink else none) [])
        [(⟨0, 0⟩, ⟨1, 0⟩)]
      = some (SnarlGraph.mk
          (fun n => if n = 0 then some (.String "a")
            else if n = 1 then some .Sink else none) [(⟨0, 0⟩, ⟨1, 0⟩)])
    ∧ WiresInvariant ([(⟨0, 0⟩, ⟨1, 0⟩)] : Wires)
    ∧ (∀ ws ∈ mediatedTrace
          (SnarlGraph.mk
            (fun n => if n = 0 then some (.String "a")
              else if n = 1 then some .Sink else none) [])
          (mkOutPin [] ⟨0, 0⟩) (mkInPin [] ⟨1, 0⟩),
        countIn ws ⟨1, 0⟩ ≤ 1) := by
  have hinv : WiresInvariant ([] : Wires) := by
    intro d
    simp [countIn]
  have hrun : runConnects
      (SnarlGraph.mk
        (fun n => if n = 0 then some (.String "a")
          else if n = 1 then some .Sink else none) [])
      [(⟨0, 0⟩, ⟨1, 0⟩)]
      = some (SnarlGraph.mk
          (fun n => if n = 0 then some (.String "a")
            else if n = 1 then some .Sink else none) [(⟨0, 0⟩, ⟨1, 0⟩)]) := rfl
  exact ⟨hinv, hrun,
    C2_connection_protocol.1 _ [(⟨0, 0⟩, ⟨1, 0⟩)] _ hinv hrun,
    C2_connection_protocol.2
      (SnarlGraph.mk
        (fun n => if n = 0 then some (.String "a")
          else if n = 1 then some .Sink else none) [])
      (mkOutPin [] ⟨0, 0⟩) ⟨1, 0⟩ hinv⟩

end Snarl
